import Mathlib

/-!
Verification of the tentacle-IK monster game
(`src/components/MonsterElectricoGame.tsx`).

The simulation core is embedded shallowly over `ℝ` (JS numbers are IEEE
doubles; the spec states its geometric properties "within floating-point
tolerance", i.e. about the real-number idealization).  Mutable objects
become immutable records with explicit state passing; the in-place array
loops over segment indices become structurally recursive passes over
`List` with `List.set`/`List.getD`.
-/

namespace MonsterGame

/-- A 2-D point, as in the `Point` interface of the source. -/
@[ext]
structure Point where
  x : ℝ
  y : ℝ

instance : Inhabited Point := ⟨⟨0, 0⟩⟩

/-- `dist(p1x, p1y, p2x, p2y)` from the source: Euclidean distance. -/
noncomputable def dist (p1x p1y p2x p2y : ℝ) : ℝ :=
  Real.sqrt ((p2x - p1x) ^ 2 + (p2y - p1y) ^ 2)

/-- `Math.atan2(y, x)`, embedded as the argument of the complex number
`x + y·i` (the same two-argument arctangent convention). -/
noncomputable def atan2 (y x : ℝ) : ℝ :=
  Complex.arg ⟨x, y⟩

/-- One link of a tentacle chain — the `TentacleSegment` class. -/
structure TentacleSegment where
  pos : Point
  nextPos : Point
  length : ℝ
  angle : ℝ
  first : Bool

instance : Inhabited TentacleSegment := ⟨⟨default, default, 0, 0, false⟩⟩

/-- The `TentacleSegment` constructor.  In the source the parent is a
union (`{x, y}` anchor for the first segment, a prior segment otherwise),
discriminated by the `first` flag; here both possible parent positions are
passed and `first` selects between them, exactly as the constructor's
branch does. -/
noncomputable def TentacleSegment.create (parentAnchor parentNext : Point)
    (length angle : ℝ) (first : Bool) : TentacleSegment :=
  let pos := if first then parentAnchor else parentNext
  { first := first
    pos := pos
    length := length
    angle := angle
    nextPos := ⟨pos.x + length * Real.cos angle, pos.y + length * Real.sin angle⟩ }

/-- `TentacleSegment.update(target)`: point the segment at `target`,
place `pos` a distance `length` behind it (`angle - π` direction), and
recompute `nextPos`. -/
noncomputable def TentacleSegment.update (s : TentacleSegment) (target : Point) :
    TentacleSegment :=
  let angle := atan2 (target.y - s.pos.y) (target.x - s.pos.x)
  let px := target.x + s.length * Real.cos (angle - Real.pi)
  let py := target.y + s.length * Real.sin (angle - Real.pi)
  { s with
    angle := angle
    pos := ⟨px, py⟩
    nextPos := ⟨px + s.length * Real.cos angle, py + s.length * Real.sin angle⟩ }

/-- `TentacleSegment.fallback(target)`: hard reset of `pos` to `target`,
`nextPos` recomputed from the unchanged (stale) `angle`. -/
noncomputable def TentacleSegment.fallback (s : TentacleSegment) (target : Point) :
    TentacleSegment :=
  { s with
    pos := target
    nextPos := ⟨target.x + s.length * Real.cos s.angle,
                target.y + s.length * Real.sin s.angle⟩ }

lemma dist_eq (p1x p1y p2x p2y : ℝ) :
    dist p1x p1y p2x p2y = Real.sqrt ((p2x - p1x) ^ 2 + (p2y - p1y) ^ 2) := rfl

lemma update_pos_x (s : TentacleSegment) (T : Point) :
    (s.update T).pos.x = T.x - s.length * Real.cos (s.update T).angle := by
  simp only [TentacleSegment.update, Real.cos_sub_pi]
  ring

lemma update_pos_y (s : TentacleSegment) (T : Point) :
    (s.update T).pos.y = T.y - s.length * Real.sin (s.update T).angle := by
  simp only [TentacleSegment.update, Real.sin_sub_pi]
  ring

lemma update_angle (s : TentacleSegment) (T : Point) :
    (s.update T).angle = atan2 (T.y - s.pos.y) (T.x - s.pos.x) := rfl

lemma update_nextPos (s : TentacleSegment) (T : Point) :
    (s.update T).nextPos = T := by
  have hx : (s.update T).nextPos.x = T.x := by
    simp only [TentacleSegment.update, Real.cos_sub_pi]
    ring
  have hy : (s.update T).nextPos.y = T.y := by
    simp only [TentacleSegment.update, Real.sin_sub_pi]
    ring
  exact Point.ext hx hy

lemma update_dist (s : TentacleSegment) (T : Point) (h : 0 ≤ s.length) :
    dist (s.update T).pos.x (s.update T).pos.y T.x T.y = s.length := by
  rw [dist_eq, update_pos_x, update_pos_y]
  have : (T.x - (T.x - s.length * Real.cos (s.update T).angle)) ^ 2 +
      (T.y - (T.y - s.length * Real.sin (s.update T).angle)) ^ 2 = s.length ^ 2 := by
    have hpy : Real.cos (s.update T).angle ^ 2 + Real.sin (s.update T).angle ^ 2 = 1 :=
      Real.cos_sq_add_sin_sq _
    nlinarith [hpy]
  rw [this]
  exact Real.sqrt_sq h

/-- Claim C1: after `update(T)` on a segment of fixed length `len`, the
segment's `angle` is `atan2(T.y - pos.y, T.x - pos.x)` (computed at the
pre-update `pos`), its new `pos` lies at `T - len·(cos angle, sin angle)`
— distance `len` from `T` in the direction opposite the new angle — and
the recomputed `nextPos = pos + len·(cos angle, sin angle)` equals `T`
exactly, so `distance(pos, T) = len`. -/
theorem update_reaches_target (s : TentacleSegment) (T : Point) (h : 0 ≤ s.length) :
    (s.update T).angle = atan2 (T.y - s.pos.y) (T.x - s.pos.x) ∧
    (s.update T).pos.x = T.x - s.length * Real.cos (s.update T).angle ∧
    (s.update T).pos.y = T.y - s.length * Real.sin (s.update T).angle ∧
    (s.update T).nextPos = T ∧
    dist (s.update T).pos.x (s.update T).pos.y T.x T.y = s.length :=
  ⟨update_angle s T, update_pos_x s T, update_pos_y s T, update_nextPos s T,
    update_dist s T h⟩

/-- Witness for C1 at a concrete segment of length 1 and target (3, 4). -/
theorem update_reaches_target_witness :
    ((TentacleSegment.mk ⟨0, 0⟩ ⟨1, 0⟩ 1 0 true).update ⟨3, 4⟩).nextPos = ⟨3, 4⟩ ∧
    dist ((TentacleSegment.mk ⟨0, 0⟩ ⟨1, 0⟩ 1 0 true).update ⟨3, 4⟩).pos.x
      ((TentacleSegment.mk ⟨0, 0⟩ ⟨1, 0⟩ 1 0 true).update ⟨3, 4⟩).pos.y 3 4 = 1 := by
  obtain ⟨-, -, -, h4, h5⟩ :=
    update_reaches_target (TentacleSegment.mk ⟨0, 0⟩ ⟨1, 0⟩ 1 0 true) ⟨3, 4⟩
      (by norm_num)
  exact ⟨h4, h5⟩

/-- The structural invariant of a segment: `nextPos` is `pos` displaced
by `length` in direction `angle`. -/
def segInvariant (s : TentacleSegment) : Prop :=
  s.nextPos.x = s.pos.x + s.length * Real.cos s.angle ∧
  s.nextPos.y = s.pos.y + s.length * Real.sin s.angle

lemma segInvariant_create (pa pn : Point) (len ang : ℝ) (fi : Bool) :
    segInvariant (TentacleSegment.create pa pn len ang fi) := by
  constructor <;> rfl

lemma segInvariant_update (s : TentacleSegment) (T : Point) :
    segInvariant (s.update T) := by
  constructor <;> rfl

lemma segInvariant_fallback (s : TentacleSegment) (T : Point) :
    segInvariant (s.fallback T) := by
  constructor <;> rfl

lemma update_length (s : TentacleSegment) (T : Point) :
    (s.update T).length = s.length := rfl

lemma fallback_length (s : TentacleSegment) (T : Point) :
    (s.fallback T).length = s.length := rfl

/-- Claim C4: `nextPos = pos + length·(cos angle, sin angle)` holds after
construction, after every `update`, and after every `fallback` (which
forces `pos` to the given point and recomputes `nextPos` from the stale
`angle`), and neither operation changes the segment's `length`. -/
theorem segment_invariant_preserved :
    (∀ (pa pn : Point) (len ang : ℝ) (fi : Bool),
      segInvariant (TentacleSegment.create pa pn len ang fi)) ∧
    (∀ (s : TentacleSegment) (T : Point), segInvariant (s.update T)) ∧
    (∀ (s : TentacleSegment) (T : Point), segInvariant (s.fallback T)) ∧
    (∀ (s : TentacleSegment) (T : Point),
      (s.update T).length = s.length ∧ (s.fallback T).length = s.length ∧
      (s.fallback T).pos = T ∧ (s.fallback T).angle = s.angle) :=
  ⟨segInvariant_create, segInvariant_update, segInvariant_fallback,
    fun s T => ⟨update_length s T, fallback_length s T, rfl, rfl⟩⟩

/-- A tentacle: fixed anchor `(x, y)`, total `length`, a chain of
`numSegments` segments in base-to-tip order, plus the per-tick scratch
fields of the source (`target`, `rand`, `angle`, `dt`). -/
structure Tentacle where
  x : ℝ
  y : ℝ
  length : ℝ
  numSegments : ℕ
  segments : List TentacleSegment
  target : Point
  rand : ℝ
  angle : ℝ
  dt : ℝ

lemma getD_set_ne {α : Type} (l : List α) (i j : ℕ) (a d : α) (h : i ≠ j) :
    (l.set i a).getD j d = l.getD j d := by
  simp [List.getD_eq_getElem?_getD, List.getElem?_set_ne h]

lemma getD_set_self {α : Type} (l : List α) (i : ℕ) (a d : α) (h : i < l.length) :
    (l.set i a).getD i d = a := by
  simp [List.getD_eq_getElem?_getD, List.getElem?_set_self, h]

/-- The descending IK loop `for (let i = numSegments - 2; i >= 0; i--)
segments[i].update(segments[i+1].pos)`, phrased as recursion on the
counter: `ikDescend segs (k)` runs the body for indices
`k-1, k-2, …, 0` (so the source loop is `ikDescend segs1 (n - 1)`). -/
noncomputable def ikDescend : List TentacleSegment → ℕ → List TentacleSegment
  | segs, 0 => segs
  | segs, i + 1 =>
    ikDescend
      (segs.set i ((segs.getD i default).update ((segs.getD (i + 1) default).pos))) i

/-- The tip update plus the descending IK loop of `updateMonster`:
`if (t.x) segments[n-1].update(t) else segments[n-1].update(target)`,
then the descending loop. -/
noncomputable def ikPhase (segs : List TentacleSegment) (n : ℕ) (t target : Point) :
    List TentacleSegment :=
  let segs1 :=
    if t.x ≠ 0 then
      segs.set (n - 1) ((segs.getD (n - 1) default).update t)
    else
      segs.set (n - 1) ((segs.getD (n - 1) default).update target)
  ikDescend segs1 (n - 1)

/-- The ascending fallback loop `for (let i = 1; i < numSegments; i++)
segments[i].fallback(segments[i-1].nextPos)`, with the iteration count as
fuel: `fallbackLoop segs i fuel` runs the body for indices
`i, i+1, …, i+fuel-1` (the source loop is `fallbackLoop segs 1 (n - 1)`). -/
noncomputable def fallbackLoop : List TentacleSegment → ℕ → ℕ → List TentacleSegment
  | segs, _, 0 => segs
  | segs, i, fuel + 1 =>
    fallbackLoop
      (segs.set i ((segs.getD i default).fallback ((segs.getD (i - 1) default).nextPos)))
      (i + 1) fuel

/-- `tentacle.angle` as recomputed each tick:
`Math.atan2(target.y - tentacle.y, target.x - tentacle.x)`. -/
noncomputable def tentacleAngle (tentacle : Tentacle) (target : Point) : ℝ :=
  atan2 (target.y - tentacle.y) (target.x - tentacle.x)

/-- `tentacle.dt` as recomputed each tick:
`dist(lastTarget, target) + 5`. -/
noncomputable def tentacleDelta (target lastTarget : Point) : ℝ :=
  dist lastTarget.x lastTarget.y target.x target.y + 5

/-- The lead point `t` of `updateMonster`:
`target - 0.8·dt·(cos angle, sin angle)`. -/
noncomputable def leadPoint (tentacle : Tentacle) (target lastTarget : Point) : Point :=
  ⟨target.x - 0.8 * tentacleDelta target lastTarget *
      Real.cos (tentacleAngle tentacle target),
   target.y - 0.8 * tentacleDelta target lastTarget *
      Real.sin (tentacleAngle tentacle target)⟩

/-- One tick of `updateMonster` for a single tentacle, given the shared
creature target and the previous tick's target: lead-point computation,
tip update, descending IK pass, then — when the reachability condition
holds — the base fallback and ascending fallback pass. -/
noncomputable def tentacleTick (tentacle : Tentacle) (target lastTarget : Point) :
    Tentacle :=
  let angle := tentacleAngle tentacle target
  let dt := tentacleDelta target lastTarget
  let t : Point := leadPoint tentacle target lastTarget
  let n := tentacle.numSegments
  let segs2 := ikPhase tentacle.segments n t target
  let segs3 :=
    if dist tentacle.x tentacle.y target.x target.y ≤
        tentacle.length + dist lastTarget.x lastTarget.y target.x target.y then
      fallbackLoop
        (segs2.set 0 ((segs2.getD 0 default).fallback ⟨tentacle.x, tentacle.y⟩))
        1 (n - 1)
    else segs2
  { tentacle with angle := angle, dt := dt, segments := segs3 }

lemma ikDescend_length (segs : List TentacleSegment) (k : ℕ) :
    (ikDescend segs k).length = segs.length := by
  induction k generalizing segs with
  | zero => rfl
  | succ i ih => rw [ikDescend, ih, List.length_set]

lemma ikDescend_getD_ge (segs : List TentacleSegment) (k j : ℕ) (h : k ≤ j) :
    (ikDescend segs k).getD j default = segs.getD j default := by
  induction k generalizing segs with
  | zero => rfl
  | succ i ih =>
    rw [ikDescend, ih _ (Nat.le_of_succ_le h)]
    exact getD_set_ne _ _ _ _ _ (by omega)

lemma ikDescend_getD_lt (segs : List TentacleSegment) (k : ℕ) (hk : k ≤ segs.length)
    (j : ℕ) (hj : j < k) :
    (ikDescend segs k).getD j default =
      (segs.getD j default).update ((ikDescend segs k).getD (j + 1) default).pos := by
  induction k generalizing segs with
  | zero => omega
  | succ i ih =>
    rw [ikDescend]
    by_cases hji : j < i
    · rw [ih _ (by simp only [List.length_set]; omega) hji,
        getD_set_ne _ _ _ _ _ (by omega)]
    · have hji' : j = i := by omega
      subst hji'
      rw [ikDescend_getD_ge _ _ _ le_rfl,
        getD_set_self _ _ _ _ (by omega),
        ikDescend_getD_ge _ _ _ (Nat.le_succ j),
        getD_set_ne _ _ _ _ _ (by omega)]

lemma fallbackLoop_length (segs : List TentacleSegment) (i fuel : ℕ) :
    (fallbackLoop segs i fuel).length = segs.length := by
  induction fuel generalizing segs i with
  | zero => rfl
  | succ f ih => rw [fallbackLoop, ih, List.length_set]

lemma fallbackLoop_getD_lt (segs : List TentacleSegment) (i fuel j : ℕ) (h : j < i) :
    (fallbackLoop segs i fuel).getD j default = segs.getD j default := by
  induction fuel generalizing segs i with
  | zero => rfl
  | succ f ih =>
    rw [fallbackLoop, ih _ _ (by omega)]
    exact getD_set_ne _ _ _ _ _ (by omega)

lemma fallbackLoop_getD_mem (segs : List TentacleSegment) (i fuel : ℕ)
    (h1 : 1 ≤ i) (hlen : i + fuel ≤ segs.length) (j : ℕ) (hij : i ≤ j)
    (hj : j < i + fuel) :
    (fallbackLoop segs i fuel).getD j default =
      (segs.getD j default).fallback
        ((fallbackLoop segs i fuel).getD (j - 1) default).nextPos := by
  induction fuel generalizing segs i with
  | zero => omega
  | succ f ih =>
    rw [fallbackLoop]
    by_cases hji : i + 1 ≤ j
    · rw [ih _ _ (by omega) (by simp only [List.length_set]; omega) hji (by omega),
        getD_set_ne _ _ _ _ _ (by omega)]
    · have hji' : j = i := by omega
      subst hji'
      rw [fallbackLoop_getD_lt _ _ _ _ (by omega),
        getD_set_self _ _ _ _ (by omega),
        fallbackLoop_getD_lt _ _ _ _ (by omega),
        getD_set_ne _ _ _ _ _ (by omega)]

lemma fallback_pos (s : TentacleSegment) (T : Point) : (s.fallback T).pos = T := rfl

lemma ikPhase_length (segs : List TentacleSegment) (n : ℕ) (t target : Point) :
    (ikPhase segs n t target).length = segs.length := by
  rw [ikPhase]
  by_cases hx : t.x ≠ 0 <;>
    simp [hx, ikDescend_length, List.length_set]

lemma ikPhase_getD_tip (segs : List TentacleSegment) (n : ℕ) (t target : Point)
    (hn : n = segs.length) (h1 : 1 ≤ n) :
    (ikPhase segs n t target).getD (n - 1) default =
      (segs.getD (n - 1) default).update (if t.x ≠ 0 then t else target) := by
  have hlt : n - 1 < segs.length := by omega
  rw [ikPhase]
  by_cases hx : t.x ≠ 0
  · rw [if_pos hx, if_pos hx, ikDescend_getD_ge _ _ _ le_rfl,
      getD_set_self _ _ _ _ hlt]
  · rw [if_neg hx, if_neg hx, ikDescend_getD_ge _ _ _ le_rfl,
      getD_set_self _ _ _ _ hlt]

lemma ikPhase_getD_inner (segs : List TentacleSegment) (n : ℕ) (t target : Point)
    (hn : n = segs.length) (i : ℕ) (hi : i < n - 1) :
    (ikPhase segs n t target).getD i default =
      (segs.getD i default).update
        ((ikPhase segs n t target).getD (i + 1) default).pos := by
  rw [ikPhase]
  by_cases hx : t.x ≠ 0
  · rw [if_pos hx, ikDescend_getD_lt _ _ (by simp only [List.length_set]; omega) i hi,
      getD_set_ne segs (n - 1) i _ default (by omega)]
  · rw [if_neg hx, ikDescend_getD_lt _ _ (by simp only [List.length_set]; omega) i hi,
      getD_set_ne segs (n - 1) i _ default (by omega)]

/-- Claim C2: each tick stores `angle = atan2(T.y - anchor.y, T.x - anchor.x)`
and `delta = distance(T_prev, T) + 5` on the tentacle, and the IK pass over
the segments uses the lead point `L = T - 0.8·delta·(cos angle, sin angle)`:
the tip segment (index `numSegments - 1`) is updated toward `L` when `L.x`
is nonzero and toward `T` when `L.x` is exactly zero, and the remaining
segments are updated in descending index order from `numSegments - 2` down
to `0`, each toward its successor segment's already-updated `pos`. -/
theorem tentacle_ik_pass (tentacle : Tentacle) (target lastTarget : Point)
    (hn : tentacle.numSegments = tentacle.segments.length)
    (h1 : 1 ≤ tentacle.numSegments) :
    (tentacleTick tentacle target lastTarget).angle =
      atan2 (target.y - tentacle.y) (target.x - tentacle.x) ∧
    (tentacleTick tentacle target lastTarget).dt =
      dist lastTarget.x lastTarget.y target.x target.y + 5 ∧
    leadPoint tentacle target lastTarget =
      ⟨target.x - 0.8 * (dist lastTarget.x lastTarget.y target.x target.y + 5) *
          Real.cos (atan2 (target.y - tentacle.y) (target.x - tentacle.x)),
       target.y - 0.8 * (dist lastTarget.x lastTarget.y target.x target.y + 5) *
          Real.sin (atan2 (target.y - tentacle.y) (target.x - tentacle.x))⟩ ∧
    ((ikPhase tentacle.segments tentacle.numSegments
        (leadPoint tentacle target lastTarget) target).getD
        (tentacle.numSegments - 1) default =
      (tentacle.segments.getD (tentacle.numSegments - 1) default).update
        (if (leadPoint tentacle target lastTarget).x ≠ 0 then
          leadPoint tentacle target lastTarget
        else target)) ∧
    (∀ i, i < tentacle.numSegments - 1 →
      (ikPhase tentacle.segments tentacle.numSegments
          (leadPoint tentacle target lastTarget) target).getD i default =
        (tentacle.segments.getD i default).update
          ((ikPhase tentacle.segments tentacle.numSegments
              (leadPoint tentacle target lastTarget) target).getD (i + 1)
            default).pos) :=
  ⟨rfl, rfl, rfl,
    ikPhase_getD_tip tentacle.segments tentacle.numSegments _ target hn h1,
    fun i hi =>
      ikPhase_getD_inner tentacle.segments tentacle.numSegments _ target hn i hi⟩

/-- Witness for C2: the tip characterization at a concrete 2-segment
tentacle anchored at the origin with target (3, 4). -/
theorem tentacle_ik_pass_witness :
    (ikPhase (Tentacle.mk 0 0 2 2
        [TentacleSegment.mk ⟨0, 0⟩ ⟨1, 0⟩ 1 0 true,
         TentacleSegment.mk ⟨1, 0⟩ ⟨2, 0⟩ 1 0 false] ⟨0, 0⟩ 0 0 0).segments 2
      (leadPoint (Tentacle.mk 0 0 2 2
        [TentacleSegment.mk ⟨0, 0⟩ ⟨1, 0⟩ 1 0 true,
         TentacleSegment.mk ⟨1, 0⟩ ⟨2, 0⟩ 1 0 false] ⟨0, 0⟩ 0 0 0) ⟨3, 4⟩ ⟨0, 0⟩)
      ⟨3, 4⟩).getD (2 - 1) default =
    ((Tentacle.mk 0 0 2 2
        [TentacleSegment.mk ⟨0, 0⟩ ⟨1, 0⟩ 1 0 true,
         TentacleSegment.mk ⟨1, 0⟩ ⟨2, 0⟩ 1 0 false] ⟨0, 0⟩ 0 0 0).segments.getD
        (2 - 1) default).update
      (if (leadPoint (Tentacle.mk 0 0 2 2
          [TentacleSegment.mk ⟨0, 0⟩ ⟨1, 0⟩ 1 0 true,
           TentacleSegment.mk ⟨1, 0⟩ ⟨2, 0⟩ 1 0 false] ⟨0, 0⟩ 0 0 0) ⟨3, 4⟩
          ⟨0, 0⟩).x ≠ 0 then
        leadPoint (Tentacle.mk 0 0 2 2
          [TentacleSegment.mk ⟨0, 0⟩ ⟨1, 0⟩ 1 0 true,
           TentacleSegment.mk ⟨1, 0⟩ ⟨2, 0⟩ 1 0 false] ⟨0, 0⟩ 0 0 0) ⟨3, 4⟩ ⟨0, 0⟩
      else ⟨3, 4⟩) :=
  (tentacle_ik_pass (Tentacle.mk 0 0 2 2
      [TentacleSegment.mk ⟨0, 0⟩ ⟨1, 0⟩ 1 0 true,
       TentacleSegment.mk ⟨1, 0⟩ ⟨2, 0⟩ 1 0 false] ⟨0, 0⟩ 0 0 0) ⟨3, 4⟩ ⟨0, 0⟩
    rfl (by norm_num)).2.2.2.1

/-- Claim C3: when `distance(anchor, T) ≤ tentacle.length +
distance(T_prev, T)` the tick runs the IK pass and then the fallback pass
over the IK pass's output (fallback overwrites the IK result): the base
segment's `pos` ends at the anchor and every segment `i ≥ 1` ends with
`pos` equal to segment `i-1`'s `nextPos` (base-to-tip order); when the
condition fails, the tick's segments are exactly the IK pass's output. -/
theorem tentacle_fallback_pass (tentacle : Tentacle) (target lastTarget : Point)
    (hn : tentacle.numSegments = tentacle.segments.length)
    (h1 : 1 ≤ tentacle.numSegments) :
    (dist tentacle.x tentacle.y target.x target.y ≤
        tentacle.length + dist lastTarget.x lastTarget.y target.x target.y →
      (tentacleTick tentacle target lastTarget).segments =
        fallbackLoop
          ((ikPhase tentacle.segments tentacle.numSegments
              (leadPoint tentacle target lastTarget) target).set 0
            (((ikPhase tentacle.segments tentacle.numSegments
                  (leadPoint tentacle target lastTarget) target).getD 0
                default).fallback ⟨tentacle.x, tentacle.y⟩))
          1 (tentacle.numSegments - 1) ∧
      ((tentacleTick tentacle target lastTarget).segments.getD 0 default).pos =
        ⟨tentacle.x, tentacle.y⟩ ∧
      (∀ i, 1 ≤ i → i < tentacle.numSegments →
        ((tentacleTick tentacle target lastTarget).segments.getD i default).pos =
          ((tentacleTick tentacle target lastTarget).segments.getD (i - 1)
            default).nextPos)) ∧
    (¬ dist tentacle.x tentacle.y target.x target.y ≤
        tentacle.length + dist lastTarget.x lastTarget.y target.x target.y →
      (tentacleTick tentacle target lastTarget).segments =
        ikPhase tentacle.segments tentacle.numSegments
          (leadPoint tentacle target lastTarget) target) := by
  set res := ikPhase tentacle.segments tentacle.numSegments
    (leadPoint tentacle target lastTarget) target with hres
  have hreslen : res.length = tentacle.segments.length := ikPhase_length _ _ _ _
  constructor
  · intro hcond
    have hsegs : (tentacleTick tentacle target lastTarget).segments =
        fallbackLoop (res.set 0 ((res.getD 0 default).fallback
          ⟨tentacle.x, tentacle.y⟩)) 1 (tentacle.numSegments - 1) := by
      simp only [tentacleTick, ← hres, if_pos hcond]
    refine ⟨hsegs, ?_, ?_⟩
    · rw [hsegs, fallbackLoop_getD_lt _ _ _ _ Nat.zero_lt_one,
        getD_set_self _ _ _ _ (by omega), fallback_pos]
    · intro i hi1 hin
      rw [hsegs, fallbackLoop_getD_mem _ 1 _ le_rfl
        (by simp only [List.length_set, hreslen]; omega) i hi1 (by omega),
        fallback_pos]
  · intro hcond
    simp only [tentacleTick, ← hres, if_neg hcond]

/-- Witness for C3: the in-reach branch at a concrete 2-segment tentacle —
after the tick the base segment sits exactly on the anchor. -/
theorem tentacle_fallback_pass_witness :
    ((tentacleTick (Tentacle.mk 0 0 2 2
        [TentacleSegment.mk ⟨0, 0⟩ ⟨1, 0⟩ 1 0 true,
         TentacleSegment.mk ⟨1, 0⟩ ⟨2, 0⟩ 1 0 false] ⟨0, 0⟩ 0 0 0) ⟨3, 4⟩
        ⟨0, 0⟩).segments.getD 0 default).pos = ⟨0, 0⟩ :=
  ((tentacle_fallback_pass (Tentacle.mk 0 0 2 2
      [TentacleSegment.mk ⟨0, 0⟩ ⟨1, 0⟩ 1 0 true,
       TentacleSegment.mk ⟨1, 0⟩ ⟨2, 0⟩ 1 0 false] ⟨0, 0⟩ 0 0 0) ⟨3, 4⟩ ⟨0, 0⟩
    rfl (by norm_num)).1
    (by
      have h : (0:ℝ) ≤ 2 := by norm_num
      show dist 0 0 3 4 ≤ 2 + dist 0 0 3 4
      linarith)).2.1

/-- The segment-construction loop of `initializeTentacles`: after the
first segment, each further segment is built from its predecessor's
`nextPos`, with the same `segmentLength` and angle 0. -/
noncomputable def segChain : TentacleSegment → ℝ → ℕ → List TentacleSegment
  | _, _, 0 => []
  | prev, segmentLength, k + 1 =>
    let s := TentacleSegment.create default prev.nextPos segmentLength 0 false
    s :: segChain s segmentLength k

/-- One tentacle of `initializeTentacles`, with the `Math.random()` draws
passed in explicitly: `rLen` for the length draw, `rX`, `rY` for the
anchor position, `rRand` for the stored `rand`.  The segment length is
`length / numSegments` and the chain is the root segment followed by
`numSegments - 1` chained segments. -/
noncomputable def initTentacle (w h rLen rX rY rRand minLength maxLength : ℝ)
    (numSegments : ℕ) : Tentacle :=
  let length := rLen * (maxLength - minLength) + minLength
  let segmentLength := length / (numSegments : ℝ)
  let s0 := TentacleSegment.create ⟨rX * w, rY * h⟩ default segmentLength 0 true
  { x := rX * w
    y := rY * h
    length := length
    numSegments := numSegments
    segments := s0 :: segChain s0 segmentLength (numSegments - 1)
    target := ⟨0, 0⟩
    rand := rRand
    angle := 0
    dt := 0 }

lemma create_length (pa pn : Point) (len ang : ℝ) (fi : Bool) :
    (TentacleSegment.create pa pn len ang fi).length = len := rfl

lemma segChain_map_length (c : ℝ) (k : ℕ) :
    ∀ prev : TentacleSegment,
      (segChain prev c k).map (fun s => s.length) = List.replicate k c := by
  induction k with
  | zero => intro prev; rfl
  | succ j ih =>
    intro prev
    simp only [segChain, List.map_cons, create_length, ih, List.replicate_succ]

lemma map_length_set (l : List TentacleSegment) (i : ℕ) (a : TentacleSegment)
    (h : a.length = (l.getD i default).length) :
    (l.set i a).map (fun s => s.length) = l.map (fun s => s.length) := by
  induction l generalizing i with
  | nil => rfl
  | cons x xs ih =>
    cases i with
    | zero =>
      rw [List.getD_cons_zero] at h
      simp only [List.set_cons_zero, List.map_cons, h]
    | succ j =>
      rw [List.getD_cons_succ] at h
      simp only [List.set_cons_succ, List.map_cons, ih j h]

lemma ikDescend_map_length (segs : List TentacleSegment) (k : ℕ) :
    (ikDescend segs k).map (fun s => s.length) = segs.map (fun s => s.length) := by
  induction k generalizing segs with
  | zero => rfl
  | succ i ih => rw [ikDescend, ih, map_length_set _ _ _ (update_length _ _)]

lemma fallbackLoop_map_length (segs : List TentacleSegment) (i fuel : ℕ) :
    (fallbackLoop segs i fuel).map (fun s => s.length) =
      segs.map (fun s => s.length) := by
  induction fuel generalizing segs i with
  | zero => rfl
  | succ f ih => rw [fallbackLoop, ih, map_length_set _ _ _ (fallback_length _ _)]

lemma ikPhase_map_length (segs : List TentacleSegment) (n : ℕ) (t target : Point) :
    (ikPhase segs n t target).map (fun s => s.length) =
      segs.map (fun s => s.length) := by
  rw [ikPhase]
  by_cases hx : t.x ≠ 0
  · rw [if_pos hx, ikDescend_map_length, map_length_set _ _ _ (update_length _ _)]
  · rw [if_neg hx, ikDescend_map_length, map_length_set _ _ _ (update_length _ _)]

lemma tentacleTick_map_length (tentacle : Tentacle) (target lastTarget : Point) :
    (tentacleTick tentacle target lastTarget).segments.map (fun s => s.length) =
      tentacle.segments.map (fun s => s.length) := by
  simp only [tentacleTick]
  by_cases hcond : dist tentacle.x tentacle.y target.x target.y ≤
      tentacle.length + dist lastTarget.x lastTarget.y target.x target.y
  · rw [if_pos hcond, fallbackLoop_map_length,
      map_length_set _ _ _ (fallback_length _ _), ikPhase_map_length]
  · rw [if_neg hcond, ikPhase_map_length]

/-- Claim C9: every segment of a freshly built tentacle is constructed
with the same segment length `length / numSegments`, there are exactly
`numSegments` of them, their lengths sum to the tentacle's `length`
field, and a tick (`tentacleTick`, i.e. the tentacle part of
`updateMonster`) never changes any segment's length, the segment count,
the tentacle's `length`, or its `numSegments`. -/
theorem tentacle_total_length (w h rLen rX rY rRand minLength maxLength : ℝ)
    (numSegments : ℕ) (h1 : 1 ≤ numSegments) :
    (initTentacle w h rLen rX rY rRand minLength maxLength
        numSegments).segments.map (fun s => s.length) =
      List.replicate numSegments
        ((initTentacle w h rLen rX rY rRand minLength maxLength
            numSegments).length / (numSegments : ℝ)) ∧
    (initTentacle w h rLen rX rY rRand minLength maxLength
        numSegments).segments.length = numSegments ∧
    ((initTentacle w h rLen rX rY rRand minLength maxLength
        numSegments).segments.map (fun s => s.length)).sum =
      (initTentacle w h rLen rX rY rRand minLength maxLength
        numSegments).length ∧
    (∀ (tentacle : Tentacle) (target lastTarget : Point),
      (tentacleTick tentacle target lastTarget).segments.map
          (fun s => s.length) =
        tentacle.segments.map (fun s => s.length) ∧
      (tentacleTick tentacle target lastTarget).segments.length =
        tentacle.segments.length ∧
      (tentacleTick tentacle target lastTarget).length = tentacle.length ∧
      (tentacleTick tentacle target lastTarget).numSegments =
        tentacle.numSegments) := by
  have hcast : ((numSegments : ℝ)) ≠ 0 := Nat.cast_ne_zero.mpr (by omega)
  have hmap : (initTentacle w h rLen rX rY rRand minLength maxLength
      numSegments).segments.map (fun s => s.length) =
      List.replicate numSegments
        ((initTentacle w h rLen rX rY rRand minLength maxLength
            numSegments).length / (numSegments : ℝ)) := by
    simp only [initTentacle, List.map_cons, create_length, segChain_map_length]
    have : numSegments = 1 + (numSegments - 1) := by omega
    rw [this, List.replicate_add, List.replicate_one]
    simp
  refine ⟨hmap, ?_, ?_, ?_⟩
  · have := congrArg List.length hmap
    simpa using this
  · rw [hmap, List.sum_replicate, nsmul_eq_mul]
    field_simp
  · intro tentacle target lastTarget
    refine ⟨tentacleTick_map_length tentacle target lastTarget, ?_, rfl, rfl⟩
    have := congrArg List.length (tentacleTick_map_length tentacle target lastTarget)
    simpa using this

/-- Witness for C9 at a concrete 2-segment tentacle: the segment lengths
sum to the tentacle's total length. -/
theorem tentacle_total_length_witness :
    ((initTentacle 800 600 0 0 0 0 50 300 2).segments.map
      (fun s => s.length)).sum = (initTentacle 800 600 0 0 0 0 50 300 2).length :=
  (tentacle_total_length 800 600 0 0 0 0 50 300 2 (by norm_num)).2.2.1

/-- The mutable creature/core state of `monster.current` (the fields that
target acquisition, smoothing and collision checking touch). -/
structure MonsterState where
  coreX : ℝ
  coreY : ℝ
  coreRadius : ℝ
  mouseX : ℝ
  mouseY : ℝ
  lastTarget : Point
  targetErrorX : ℝ
  targetErrorY : ℝ
  autoMoveTime : ℝ
  nearBoundary : Prop

/-- The autopilot figure-eight point of `updateMonster`'s `else` branch
at clock `t` on a `w`-by-`h` canvas: `q = 10`,
`autoX = centerX + ((centerY/2 - q)·sqrt 2·cos t)/(sin t ^ 2 + 1)`,
`autoY = centerY + ((centerY/2 - q)·sqrt 2·cos t·sin t)/(sin t ^ 2 + 1)`. -/
noncomputable def autoTarget (w h t : ℝ) : Point :=
  let q : ℝ := 10
  let centerX := w / 2
  let centerY := h / 2
  ⟨centerX + ((centerY / 2 - q) * Real.sqrt 2 * Real.cos t) /
      (Real.sin t ^ 2 + 1),
   centerY + ((centerY / 2 - q) * Real.sqrt 2 * Real.cos t * Real.sin t) /
      (Real.sin t ^ 2 + 1)⟩

/-- The target-acquisition and smoothing part of `updateMonster`: the
target error comes from the mouse when both mouse coordinates are truthy
(nonzero), else from the autopilot curve at the current clock; then
`core += targetError / 10` and `autoMoveTime += 0.01`. -/
noncomputable def updateCore (m : MonsterState) (w h : ℝ) : MonsterState :=
  let errX := if m.mouseX ≠ 0 ∧ m.mouseY ≠ 0 then m.mouseX - m.coreX
    else (autoTarget w h m.autoMoveTime).x - m.coreX
  let errY := if m.mouseX ≠ 0 ∧ m.mouseY ≠ 0 then m.mouseY - m.coreY
    else (autoTarget w h m.autoMoveTime).y - m.coreY
  { m with
    targetErrorX := errX
    targetErrorY := errY
    coreX := m.coreX + errX / 10
    coreY := m.coreY + errY / 10
    autoMoveTime := m.autoMoveTime + 0.01 }

/-- `handleMouseLeave`: resets the stored mouse position to the zero
sentinel so the next tick falls into the autopilot branch. -/
def handleMouseLeave (m : MonsterState) : MonsterState :=
  { m with mouseX := 0, mouseY := 0 }

/-- Claim C5: every tick the core moves by exactly `targetError / 10` in
each coordinate (constant divisor 10); the target error is pointer minus
core when both pointer coordinates are nonzero, and otherwise the
autopilot figure-eight point at the internally advancing clock minus
core; the clock advances by 0.01 each tick; and after the pointer leaves
(coordinates reset to the zero sentinel) the next tick's error is
recomputed from the curve, not the frozen pointer position. -/
theorem core_smoothing_step (m : MonsterState) (w h : ℝ) :
    ((m.mouseX ≠ 0 ∧ m.mouseY ≠ 0) →
      (updateCore m w h).coreX = m.coreX + (m.mouseX - m.coreX) / 10 ∧
      (updateCore m w h).coreY = m.coreY + (m.mouseY - m.coreY) / 10) ∧
    (¬(m.mouseX ≠ 0 ∧ m.mouseY ≠ 0) →
      (updateCore m w h).coreX =
        m.coreX + ((autoTarget w h m.autoMoveTime).x - m.coreX) / 10 ∧
      (updateCore m w h).coreY =
        m.coreY + ((autoTarget w h m.autoMoveTime).y - m.coreY) / 10) ∧
    (updateCore m w h).autoMoveTime = m.autoMoveTime + 0.01 ∧
    ((updateCore (handleMouseLeave m) w h).coreX =
      m.coreX + ((autoTarget w h m.autoMoveTime).x - m.coreX) / 10 ∧
     (updateCore (handleMouseLeave m) w h).coreY =
      m.coreY + ((autoTarget w h m.autoMoveTime).y - m.coreY) / 10) := by
  refine ⟨?_, ?_, rfl, ?_⟩
  · intro hmv
    simp only [updateCore, if_pos hmv]
    exact ⟨trivial, trivial⟩
  · intro hmv
    simp only [updateCore, if_neg hmv]
    exact ⟨trivial, trivial⟩
  · simp only [updateCore, handleMouseLeave]
    norm_num

/-- Witness for C5: with the pointer gone, a concrete core at (400, 300)
is driven by the autopilot curve. -/
theorem core_smoothing_step_witness :
    (updateCore (handleMouseLeave
        (MonsterState.mk 400 300 15 250 250 ⟨400, 300⟩ 0 0 0 False)) 800 600).coreX =
      400 + ((autoTarget 800 600 0).x - 400) / 10 :=
  (core_smoothing_step
    (MonsterState.mk 400 300 15 250 250 ⟨400, 300⟩ 0 0 0 False) 800 600).2.2.2.1

/-- The session state held in the `gameState` React state. -/
inductive GameState where
  | playing
  | ended
deriving DecidableEq

/-- A collectible orb, as in the `Orb` interface. -/
structure Orb where
  x : ℝ
  y : ℝ
  radius : ℝ
  pulsePhase : ℝ
  collected : Bool

instance : Inhabited Orb := ⟨⟨0, 0, 0, 0, false⟩⟩

/-- A particle, as in the `Particle` interface. -/
structure Particle where
  x : ℝ
  y : ℝ
  vx : ℝ
  vy : ℝ
  life : ℝ
  maxLife : ℝ
  size : ℝ

/-- One particle pushed by `createParticles(x, y)`, with the iteration's
four `Math.random()` draws passed explicitly: `life: 1`,
`maxLife: 30 + random·20`, `size: 2 + random·3`, velocity components
`(random - 0.5)·8`. -/
noncomputable def createParticle (x y r1 r2 r3 r4 : ℝ) : Particle :=
  { x := x
    y := y
    vx := (r1 - 0.5) * 8
    vy := (r2 - 0.5) * 8
    life := 1
    maxLife := 30 + r3 * 20
    size := 2 + r4 * 3 }

/-- `createParticles(x, y, count = 15)`: pushes `count` particles at
`(x, y)`, where `rand i` supplies the i-th iteration's random draws. -/
noncomputable def createParticles (x y : ℝ) (count : ℕ)
    (rand : ℕ → ℝ × ℝ × ℝ × ℝ) : List Particle :=
  (List.range count).map fun i =>
    createParticle x y (rand i).1 (rand i).2.1 (rand i).2.2.1 (rand i).2.2.2

/-- The per-orb pickup test of `checkCollisions`: the source guards with
`if (!orb.collected)` and then compares
`Math.sqrt((coreX - orb.x)² + (coreY - orb.y)²) < coreRadius + orb.radius`;
the nested guards are taken together as one conjunction. -/
def orbCollides (coreX coreY coreRadius : ℝ) (orb : Orb) : Prop :=
  orb.collected = false ∧
    Real.sqrt ((coreX - orb.x) ^ 2 + (coreY - orb.y) ^ 2) <
      coreRadius + orb.radius

noncomputable instance orbCollidesDec (coreX coreY coreRadius : ℝ) (orb : Orb) :
    Decidable (orbCollides coreX coreY coreRadius orb) :=
  inferInstanceAs (Decidable (orb.collected = false ∧
    Real.sqrt ((coreX - orb.x) ^ 2 + (coreY - orb.y) ^ 2) <
      coreRadius + orb.radius))

/-- The accumulated effect of the `orbs.forEach` loop in
`checkCollisions`: updated orb list, number of `setScore` increments,
particles pushed, and the orb indices handed to the delayed
`regenerateOrb` via `setTimeout`. -/
structure OrbScanResult where
  orbs : List Orb
  scoreDelta : ℕ
  burst : List Particle
  respawn : List ℕ

/-- The `orbs.forEach((orb, index) => …)` pickup loop, processing the
list from index `idx` on: a colliding orb is marked collected, the score
delta counts one increment, a 15-particle burst at the orb's position is
appended, and the orb's index is scheduled for regeneration. -/
noncomputable def orbLoop (coreX coreY coreRadius : ℝ)
    (rand : ℕ → ℕ → ℝ × ℝ × ℝ × ℝ) :
    List Orb → ℕ → OrbScanResult
  | [], _ => ⟨[], 0, [], []⟩
  | orb :: rest, idx =>
    let r := orbLoop coreX coreY coreRadius rand rest (idx + 1)
    if orbCollides coreX coreY coreRadius orb then
      ⟨{ orb with collected := true } :: r.orbs, r.scoreDelta + 1,
        createParticles orb.x orb.y 15 (rand idx) ++ r.burst, idx :: r.respawn⟩
    else
      ⟨orb :: r.orbs, r.scoreDelta, r.burst, r.respawn⟩

/-- The outcome of one `checkCollisions` call. -/
structure CollisionOutcome where
  gameState : GameState
  nearBoundary : Prop
  scan : OrbScanResult

/-- `checkCollisions`: boundary test with `borderWidth = 6` (an early
`return` after `setGameState("ended")`, so neither the near-boundary
flag nor the orb loop runs); otherwise the near-boundary flag is
recomputed with `warningDistance = 40` and the orb pickup loop runs. -/
noncomputable def checkCollisions (m : MonsterState) (gs : GameState) (w h : ℝ)
    (orbs : List Orb) (rand : ℕ → ℕ → ℝ × ℝ × ℝ × ℝ) : CollisionOutcome :=
  let borderWidth : ℝ := 6
  let warningDistance : ℝ := 40
  if m.coreX ≤ m.coreRadius + borderWidth ∨
      m.coreX ≥ w - m.coreRadius - borderWidth ∨
      m.coreY ≤ m.coreRadius + borderWidth ∨
      m.coreY ≥ h - m.coreRadius - borderWidth then
    ⟨GameState.ended, m.nearBoundary, ⟨orbs, 0, [], []⟩⟩
  else
    ⟨gs,
      m.coreX ≤ m.coreRadius + borderWidth + warningDistance ∨
      m.coreX ≥ w - m.coreRadius - borderWidth - warningDistance ∨
      m.coreY ≤ m.coreRadius + borderWidth + warningDistance ∨
      m.coreY ≥ h - m.coreRadius - borderWidth - warningDistance,
      orbLoop m.coreX m.coreY m.coreRadius rand orbs 0⟩

/-- The fresh orb built by `regenerateOrb(index)` (and, three times over,
by `generateOrbs`): random position inside `margin + borderWidth`,
radius `8 + random·4`, random pulse phase, `collected: false`.  The
scheduled respawn stores it with `orbs.set index`. -/
noncomputable def regenerateOrb (w h r1 r2 r3 r4 : ℝ) : Orb :=
  let borderWidth : ℝ := 6
  let margin : ℝ := 60
  { x := margin + borderWidth + r1 * (w - 2 * (margin + borderWidth))
    y := margin + borderWidth + r2 * (h - 2 * (margin + borderWidth))
    radius := 8 + r3 * 4
    pulsePhase := r4 * Real.pi * 2
    collected := false }

/-- `generateOrbs`: `Array.from({length: 3}, …)` of fresh orbs. -/
noncomputable def generateOrbs (w h : ℝ) (rand : ℕ → ℝ × ℝ × ℝ × ℝ) :
    List Orb :=
  (List.range 3).map fun i =>
    regenerateOrb w h (rand i).1 (rand i).2.1 (rand i).2.2.1 (rand i).2.2.2

/-- One firing of the 1 Hz countdown interval: `prev ≤ 1` ends the
session and clamps the clock to 0, otherwise the clock decrements and
the session state is untouched. -/
def timerTick (gs : GameState) (timeLeft : ℕ) : GameState × ℕ :=
  if timeLeft ≤ 1 then (GameState.ended, 0) else (gs, timeLeft - 1)

lemma createParticles_length (x y : ℝ) (count : ℕ)
    (rand : ℕ → ℝ × ℝ × ℝ × ℝ) :
    (createParticles x y count rand).length = count := by
  simp [createParticles]

lemma createParticles_at_pos (x y : ℝ) (count : ℕ)
    (rand : ℕ → ℝ × ℝ × ℝ × ℝ) :
    ∀ p ∈ createParticles x y count rand, p.x = x ∧ p.y = y := by
  intro p hp
  simp only [createParticles, List.mem_map] at hp
  obtain ⟨i, -, rfl⟩ := hp
  exact ⟨rfl, rfl⟩

lemma orbLoop_orbs_length (coreX coreY coreRadius : ℝ)
    (rand : ℕ → ℕ → ℝ × ℝ × ℝ × ℝ) (orbs : List Orb) (idx : ℕ) :
    (orbLoop coreX coreY coreRadius rand orbs idx).orbs.length = orbs.length := by
  induction orbs generalizing idx with
  | nil => rfl
  | cons orb rest ih =>
    rw [orbLoop]
    by_cases hc : orbCollides coreX coreY coreRadius orb
    · simp only [if_pos hc, List.length_cons, ih]
    · simp only [if_neg hc, List.length_cons, ih]

lemma orbLoop_getD (coreX coreY coreRadius : ℝ)
    (rand : ℕ → ℕ → ℝ × ℝ × ℝ × ℝ) (orbs : List Orb) (idx j : ℕ)
    (hj : j < orbs.length) :
    (orbLoop coreX coreY coreRadius rand orbs idx).orbs.getD j default =
      if orbCollides coreX coreY coreRadius (orbs.getD j default) then
        { orbs.getD j default with collected := true }
      else orbs.getD j default := by
  induction orbs generalizing idx j with
  | nil => simp at hj
  | cons orb rest ih =>
    rw [orbLoop]
    cases j with
    | zero =>
      by_cases hc : orbCollides coreX coreY coreRadius orb
      · simp only [if_pos hc, List.getD_cons_zero, if_pos hc]
      · simp only [if_neg hc, List.getD_cons_zero, if_neg hc]
    | succ k =>
      have hk : k < rest.length := by simpa using hj
      by_cases hc : orbCollides coreX coreY coreRadius orb
      · simp only [if_pos hc, List.getD_cons_succ, ih _ k hk]
      · simp only [if_neg hc, List.getD_cons_succ, ih _ k hk]

lemma orbLoop_score (coreX coreY coreRadius : ℝ)
    (rand : ℕ → ℕ → ℝ × ℝ × ℝ × ℝ) (orbs : List Orb) (idx : ℕ) :
    (orbLoop coreX coreY coreRadius rand orbs idx).scoreDelta =
      orbs.countP fun o => decide (orbCollides coreX coreY coreRadius o) := by
  induction orbs generalizing idx with
  | nil => rfl
  | cons orb rest ih =>
    rw [orbLoop, List.countP_cons]
    by_cases hc : orbCollides coreX coreY coreRadius orb
    · simp only [if_pos hc, ih, hc]
      simp
    · simp only [if_neg hc, ih, hc]
      simp

lemma orbLoop_burst_length (coreX coreY coreRadius : ℝ)
    (rand : ℕ → ℕ → ℝ × ℝ × ℝ × ℝ) (orbs : List Orb) (idx : ℕ) :
    (orbLoop coreX coreY coreRadius rand orbs idx).burst.length =
      15 * (orbLoop coreX coreY coreRadius rand orbs idx).scoreDelta := by
  induction orbs generalizing idx with
  | nil => rfl
  | cons orb rest ih =>
    rw [orbLoop]
    by_cases hc : orbCollides coreX coreY coreRadius orb
    · simp only [if_pos hc, List.length_append, createParticles_length, ih]
      ring
    · simp only [if_neg hc, ih]

lemma orbLoop_burst_mem (coreX coreY coreRadius : ℝ)
    (rand : ℕ → ℕ → ℝ × ℝ × ℝ × ℝ) (orbs : List Orb) (idx : ℕ) :
    ∀ p ∈ (orbLoop coreX coreY coreRadius rand orbs idx).burst,
      ∃ j, j < orbs.length ∧
        orbCollides coreX coreY coreRadius (orbs.getD j default) ∧
        p.x = (orbs.getD j default).x ∧ p.y = (orbs.getD j default).y := by
  induction orbs generalizing idx with
  | nil => intro p hp; exact absurd hp (List.not_mem_nil p)
  | cons orb rest ih =>
    intro p hp
    rw [orbLoop] at hp
    by_cases hc : orbCollides coreX coreY coreRadius orb
    · simp only [if_pos hc, List.mem_append] at hp
      rcases hp with hp | hp
      · obtain ⟨hx, hy⟩ := createParticles_at_pos orb.x orb.y 15 (rand idx) p hp
        exact ⟨0, by simp, by simpa using hc, by simpa using hx, by simpa using hy⟩
      · obtain ⟨j, hj, hcj, hxj, hyj⟩ := ih (idx + 1) p hp
        exact ⟨j + 1, by simpa using hj, by simpa using hcj,
          by simpa using hxj, by simpa using hyj⟩
    · simp only [if_neg hc] at hp
      obtain ⟨j, hj, hcj, hxj, hyj⟩ := ih (idx + 1) p hp
      exact ⟨j + 1, by simpa using hj, by simpa using hcj,
        by simpa using hxj, by simpa using hyj⟩

lemma orbLoop_respawn_ge (coreX coreY coreRadius : ℝ)
    (rand : ℕ → ℕ → ℝ × ℝ × ℝ × ℝ) (orbs : List Orb) (idx : ℕ) :
    ∀ k ∈ (orbLoop coreX coreY coreRadius rand orbs idx).respawn, idx ≤ k := by
  induction orbs generalizing idx with
  | nil => intro k hk; exact absurd hk (List.not_mem_nil k)
  | cons orb rest ih =>
    intro k hk
    rw [orbLoop] at hk
    by_cases hc : orbCollides coreX coreY coreRadius orb
    · simp only [if_pos hc, List.mem_cons] at hk
      rcases hk with rfl | hk
      · exact le_rfl
      · exact le_trans (Nat.le_succ idx) (ih (idx + 1) k hk)
    · simp only [if_neg hc] at hk
      exact le_trans (Nat.le_succ idx) (ih (idx + 1) k hk)

lemma orbLoop_respawn_iff (coreX coreY coreRadius : ℝ)
    (rand : ℕ → ℕ → ℝ × ℝ × ℝ × ℝ) (orbs : List Orb) (idx j : ℕ)
    (hj : j < orbs.length) :
    (idx + j ∈ (orbLoop coreX coreY coreRadius rand orbs idx).respawn ↔
      orbCollides coreX coreY coreRadius (orbs.getD j default)) := by
  induction orbs generalizing idx j with
  | nil => simp at hj
  | cons orb rest ih =>
    rw [orbLoop]
    cases j with
    | zero =>
      by_cases hc : orbCollides coreX coreY coreRadius orb
      · simpa [if_pos hc] using hc
      · simp only [if_neg hc, List.getD_cons_zero, Nat.add_zero]
        constructor
        · intro hmem
          have := orbLoop_respawn_ge coreX coreY coreRadius rand rest (idx + 1)
            idx hmem
          omega
        · intro h; exact absurd h hc
    | succ k =>
      have hk : k < rest.length := by simpa using hj
      have harith : idx + (k + 1) = (idx + 1) + k := by omega
      by_cases hc : orbCollides coreX coreY coreRadius orb
      · simp only [if_pos hc, List.mem_cons, List.getD_cons_succ]
        rw [harith]
        constructor
        · intro h
          rcases h with h | h
          · omega
          · exact (ih (idx + 1) k hk).mp h
        · intro h
          exact Or.inr ((ih (idx + 1) k hk).mpr h)
      · simp only [if_neg hc, List.getD_cons_succ]
        rw [harith]
        exact ih (idx + 1) k hk

/-- Claim C6: `checkCollisions` transitions the session to Ended exactly
when the core center is within `coreRadius + borderWidth` (= radius + 6)
of one of the four arena edges — in particular at exactly
`coreRadius + borderWidth - 1` from the left edge — and it does so
independently of the remaining time (which it never reads); otherwise the
session state passes through unchanged, whatever the near-boundary flag
(within `coreRadius + borderWidth + warningDistance`) evaluates to; and
the 1 Hz timer ends the session exactly on expiry. -/
theorem boundary_ends_session (m : MonsterState) (gs : GameState) (w h : ℝ)
    (orbs : List Orb) (rand : ℕ → ℕ → ℝ × ℝ × ℝ × ℝ) (timeLeft : ℕ) :
    ((m.coreX ≤ m.coreRadius + 6 ∨ m.coreX ≥ w - m.coreRadius - 6 ∨
      m.coreY ≤ m.coreRadius + 6 ∨ m.coreY ≥ h - m.coreRadius - 6) →
      (checkCollisions m gs w h orbs rand).gameState = GameState.ended) ∧
    (¬(m.coreX ≤ m.coreRadius + 6 ∨ m.coreX ≥ w - m.coreRadius - 6 ∨
       m.coreY ≤ m.coreRadius + 6 ∨ m.coreY ≥ h - m.coreRadius - 6) →
      (checkCollisions m gs w h orbs rand).gameState = gs ∧
      ((checkCollisions m gs w h orbs rand).nearBoundary ↔
        (m.coreX ≤ m.coreRadius + 6 + 40 ∨
         m.coreX ≥ w - m.coreRadius - 6 - 40 ∨
         m.coreY ≤ m.coreRadius + 6 + 40 ∨
         m.coreY ≥ h - m.coreRadius - 6 - 40))) ∧
    (m.coreX = m.coreRadius + 6 - 1 →
      (checkCollisions m gs w h orbs rand).gameState = GameState.ended) ∧
    (timeLeft ≤ 1 → timerTick gs timeLeft = (GameState.ended, 0)) ∧
    (1 < timeLeft → timerTick gs timeLeft = (gs, timeLeft - 1)) := by
  refine ⟨?_, ?_, ?_, ?_, ?_⟩
  · intro hhit
    simp only [checkCollisions, if_pos hhit]
  · intro hmiss
    simp only [checkCollisions, if_neg hmiss]
    exact ⟨trivial, trivial⟩
  · intro hleft
    have hhit : m.coreX ≤ m.coreRadius + 6 ∨ m.coreX ≥ w - m.coreRadius - 6 ∨
        m.coreY ≤ m.coreRadius + 6 ∨ m.coreY ≥ h - m.coreRadius - 6 :=
      Or.inl (by rw [hleft]; linarith)
    simp only [checkCollisions, if_pos hhit]
  · intro ht
    simp only [timerTick, if_pos ht]
  · intro ht
    simp only [timerTick, if_neg (by omega : ¬ timeLeft ≤ 1)]

/-- Witness for C6: a core whose center sits exactly
`coreRadius + borderWidth - 1 = 20` pixels from the left edge is ended by
the next collision check. -/
theorem boundary_ends_session_witness :
    (checkCollisions (MonsterState.mk 20 300 15 0 0 ⟨400, 300⟩ 0 0 0 False)
        GameState.playing 800 600 [] (fun _ _ => (0, 0, 0, 0))).gameState =
      GameState.ended :=
  (boundary_ends_session (MonsterState.mk 20 300 15 0 0 ⟨400, 300⟩ 0 0 0 False)
      GameState.playing 800 600 [] (fun _ _ => (0, 0, 0, 0)) 60).2.2.1
    (by norm_num)

/-- Claim C7: in the orb pickup loop, an uncollected orb strictly within
`coreRadius + orb.radius` of the core becomes collected, contributes
exactly one score increment (the total delta counts exactly the colliding
orbs), appends a burst of 15 ≥ 1 particles all at the orb's position, and
has its index scheduled for respawn; an already-collected orb is left
unchanged and contributes nothing; the orb list keeps its length through
the loop, a scheduled respawn stores a fresh uncollected orb with
`orbs.set` (length preserved), and `generateOrbs` makes exactly 3 orbs. -/
theorem orb_pickup (coreX coreY coreRadius : ℝ) (orbs : List Orb)
    (rand : ℕ → ℕ → ℝ × ℝ × ℝ × ℝ) (w h r1 r2 r3 r4 : ℝ) (i : ℕ)
    (rand4 : ℕ → ℝ × ℝ × ℝ × ℝ) :
    (∀ j, j < orbs.length →
      ((orbLoop coreX coreY coreRadius rand orbs 0).orbs.getD j default =
        if orbCollides coreX coreY coreRadius (orbs.getD j default) then
          { orbs.getD j default with collected := true }
        else orbs.getD j default) ∧
      (j ∈ (orbLoop coreX coreY coreRadius rand orbs 0).respawn ↔
        orbCollides coreX coreY coreRadius (orbs.getD j default)) ∧
      ((orbs.getD j default).collected = true →
        (orbLoop coreX coreY coreRadius rand orbs 0).orbs.getD j default =
          orbs.getD j default ∧
        j ∉ (orbLoop coreX coreY coreRadius rand orbs 0).respawn)) ∧
    (orbLoop coreX coreY coreRadius rand orbs 0).scoreDelta =
      orbs.countP (fun o => decide (orbCollides coreX coreY coreRadius o)) ∧
    (orbLoop coreX coreY coreRadius rand orbs 0).burst.length =
      15 * (orbLoop coreX coreY coreRadius rand orbs 0).scoreDelta ∧
    (∀ p ∈ (orbLoop coreX coreY coreRadius rand orbs 0).burst,
      ∃ j, j < orbs.length ∧
        orbCollides coreX coreY coreRadius (orbs.getD j default) ∧
        p.x = (orbs.getD j default).x ∧ p.y = (orbs.getD j default).y) ∧
    (orbLoop coreX coreY coreRadius rand orbs 0).orbs.length = orbs.length ∧
    (regenerateOrb w h r1 r2 r3 r4).collected = false ∧
    (orbs.set i (regenerateOrb w h r1 r2 r3 r4)).length = orbs.length ∧
    (generateOrbs w h rand4).length = 3 := by
  refine ⟨?_, orbLoop_score _ _ _ _ _ _, orbLoop_burst_length _ _ _ _ _ _,
    orbLoop_burst_mem _ _ _ _ _ _, orbLoop_orbs_length _ _ _ _ _ _, rfl,
    by simp, by simp [generateOrbs]⟩
  intro j hj
  have hresp := orbLoop_respawn_iff coreX coreY coreRadius rand orbs 0 j hj
  rw [Nat.zero_add] at hresp
  refine ⟨orbLoop_getD coreX coreY coreRadius rand orbs 0 j hj, hresp, ?_⟩
  intro hcol
  have hnc : ¬ orbCollides coreX coreY coreRadius (orbs.getD j default) := by
    intro hcon
    rw [orbCollides] at hcon
    rw [hcon.1] at hcol
    exact Bool.false_ne_true hcol
  constructor
  · rw [orbLoop_getD coreX coreY coreRadius rand orbs 0 j hj, if_neg hnc]
  · intro hmem
    exact hnc (hresp.mp hmem)

/-- Witness for C7: an uncollected orb sitting exactly under the core is
collected by the scan. -/
theorem orb_pickup_witness :
    (orbLoop 400 300 15 (fun _ _ => (0, 0, 0, 0))
        [Orb.mk 400 300 8 0 false] 0).orbs.getD 0 default =
      (if orbCollides 400 300 15 ((([Orb.mk 400 300 8 0 false] :
            List Orb)).getD 0 default) then
        { (([Orb.mk 400 300 8 0 false] : List Orb)).getD 0 default with
            collected := true }
      else (([Orb.mk 400 300 8 0 false] : List Orb)).getD 0 default) :=
  (((orb_pickup 400 300 15 [Orb.mk 400 300 8 0 false]
      (fun _ _ => (0, 0, 0, 0)) 800 600 0 0 0 0 0
      (fun _ => (0, 0, 0, 0))).1 0 (by norm_num)).1)

/-- The per-particle mutation inside the `updateParticles` filter
callback: advance by the velocity, damp the velocity by 0.98, decrement
`life` by 1. -/
noncomputable def updateParticle (p : Particle) : Particle :=
  { p with
    x := p.x + p.vx
    y := p.y + p.vy
    vx := p.vx * 0.98
    vy := p.vy * 0.98
    life := p.life - 1 }

/-- `updateParticles`: the source mutates each particle inside a
`filter` callback and keeps those with `life > 0`; its effect is this
map-then-keep pass. -/
noncomputable def updateParticles : List Particle → List Particle
  | [] => []
  | p :: rest =>
    let q := updateParticle p
    if q.life > 0 then q :: updateParticles rest else updateParticles rest

/-- The rendered alpha of `drawParticles`: `life / maxLife`. -/
noncomputable def particleAlpha (p : Particle) : ℝ := p.life / p.maxLife

/-- The rendered radius of `drawParticles`: `size * alpha`. -/
noncomputable def particleDrawRadius (p : Particle) : ℝ :=
  p.size * particleAlpha p

lemma updateParticles_eq_filter (ps : List Particle) :
    updateParticles ps =
      (ps.map updateParticle).filter fun p => decide (0 < p.life) := by
  induction ps with
  | nil => rfl
  | cons p rest ih =>
    rw [updateParticles, List.map_cons, List.filter_cons]
    by_cases hl : 0 < (updateParticle p).life
    · simp only [if_pos hl, hl, decide_True, ih]
    · simp only [if_neg hl, hl, decide_False, ih]
      simp

/-- Claim C8: the particle tick damps each velocity component by exactly
0.98, decrements the remaining life by exactly 1, keeps `maxLife`, and
filters out every particle whose decremented life is ≤ 0 — the result is
a sublist of the updated originals (so the count is non-increasing and a
removed particle cannot reappear), every survivor has positive life, and
the rendered alpha and radius scale as `life / maxLife`, both exactly 0
at life 0. -/
theorem particle_decay_tick (ps : List Particle) :
    updateParticles ps =
      ((ps.map updateParticle).filter fun p => decide (0 < p.life)) ∧
    (updateParticles ps).Sublist (ps.map updateParticle) ∧
    (updateParticles ps).length ≤ ps.length ∧
    (∀ q ∈ updateParticles ps, 0 < q.life) ∧
    (∀ p : Particle, (updateParticle p).vx = p.vx * 0.98 ∧
      (updateParticle p).vy = p.vy * 0.98 ∧
      (updateParticle p).life = p.life - 1 ∧
      (updateParticle p).maxLife = p.maxLife) ∧
    (∀ p : Particle, particleAlpha p = p.life / p.maxLife ∧
      particleDrawRadius p = p.size * (p.life / p.maxLife)) ∧
    (∀ p : Particle, p.life = 0 →
      particleAlpha p = 0 ∧ particleDrawRadius p = 0) := by
  refine ⟨updateParticles_eq_filter ps, ?_, ?_, ?_,
    fun p => ⟨rfl, rfl, rfl, rfl⟩, fun p => ⟨rfl, rfl⟩, ?_⟩
  · rw [updateParticles_eq_filter ps]
    exact List.filter_sublist _
  · calc (updateParticles ps).length
        ≤ (ps.map updateParticle).length := by
          rw [updateParticles_eq_filter ps]
          exact List.Sublist.length_le (List.filter_sublist _)
      _ = ps.length := List.length_map _ _
  · intro q hq
    rw [updateParticles_eq_filter ps] at hq
    have := List.of_mem_filter hq
    simpa using this
  · intro p hp
    constructor
    · rw [particleAlpha, hp, zero_div]
    · rw [particleDrawRadius, particleAlpha, hp, zero_div, mul_zero]

/-- Witness for C8: a two-particle list — one survivor, one purged. -/
theorem particle_decay_tick_witness :
    (updateParticles [Particle.mk 0 0 1 1 5 40 3, Particle.mk 9 9 1 1 1 40 3]).length ≤
      ([Particle.mk 0 0 1 1 5 40 3, Particle.mk 9 9 1 1 1 40 3] :
        List Particle).length :=
  (particle_decay_tick
    [Particle.mk 0 0 1 1 5 40 3, Particle.mk 9 9 1 1 1 40 3]).2.2.1

lemma updateParticles_of_all_life_one (ps : List Particle)
    (h : ∀ p ∈ ps, p.life = 1) : updateParticles ps = [] := by
  induction ps with
  | nil => rfl
  | cons p rest ih =>
    rw [updateParticles]
    have hp : p.life = 1 := h p (List.mem_cons_self p rest)
    have hq : ¬ 0 < (updateParticle p).life := by
      have : (updateParticle p).life = p.life - 1 := rfl
      rw [this, hp]
      norm_num
    rw [if_neg hq]
    exact ih fun q hq => h q (List.mem_cons_of_mem p hq)

/-- Claim C10: every particle spawned by `createParticles` starts with
`life = 1` while `maxLife ≥ 30` (given the random draw is ≥ 0), so its
first update tick drops its life to 0 and removes it — a whole fresh
burst vanishes after one `updateParticles` pass — and it renders at alpha
(and size factor) `1 / maxLife ≤ 1/30` rather than fading from full
opacity. -/
theorem particle_spawn_short_lived (x y : ℝ) (count : ℕ)
    (rand : ℕ → ℝ × ℝ × ℝ × ℝ) (hr : ∀ i, 0 ≤ (rand i).2.2.1) :
    (∀ p ∈ createParticles x y count rand,
      p.life = 1 ∧ 30 ≤ p.maxLife ∧ (updateParticle p).life = 0 ∧
      particleAlpha p = 1 / p.maxLife ∧ particleAlpha p ≤ 1 / 30) ∧
    updateParticles (createParticles x y count rand) = [] := by
  have hmem : ∀ p ∈ createParticles x y count rand,
      p.life = 1 ∧ 30 ≤ p.maxLife := by
    intro p hp
    simp only [createParticles, List.mem_map] at hp
    obtain ⟨i, -, rfl⟩ := hp
    refine ⟨rfl, ?_⟩
    have := hr i
    show (30 : ℝ) ≤ 30 + (rand i).2.2.1 * 20
    nlinarith
  refine ⟨?_, updateParticles_of_all_life_one _ fun p hp => (hmem p hp).1⟩
  intro p hp
  obtain ⟨h1, h30⟩ := hmem p hp
  have hpos : (0:ℝ) < p.maxLife := by linarith
  refine ⟨h1, h30, ?_, ?_, ?_⟩
  · show p.life - 1 = 0
    rw [h1]
    ring
  · rw [particleAlpha, h1]
  · rw [particleAlpha, h1]
    exact one_div_le_one_div_of_le (by norm_num) h30

/-- Witness for C10: a concrete burst of 15 particles at (5, 7) with zero
random draws is gone after one update pass. -/
theorem particle_spawn_short_lived_witness :
    updateParticles (createParticles 5 7 15 (fun _ => (0, 0, 0, 0))) = [] :=
  (particle_spawn_short_lived 5 7 15 (fun _ => (0, 0, 0, 0))
    (fun _ => le_refl 0)).2

end MonsterGame
